import Mathlib

/-!
Verification of the fluidize graph engine against its specification.

The development shallowly embeds the graph model (`core/modules/graph/model.py`),
the graph processor (`core/modules/graph/processor.py`), the process executor
(`core/modules/logging/process_executor.py`), the local execution manager
(`core/modules/run/node/methods/local/Execute.py`) and the local runs handler
(`backends/local/runs.py`).  Python dicts are embedded as association lists with
insertion-order semantics; file contents are embedded structurally (a
`graph.json` file is its parsed `GraphData`); stateful code is embedded by
explicit state passing, and code that raises returns the error alongside the
post-state.
-/

namespace Fluidize

/-- Lookup in an association list with Python-dict semantics
(first entry with the given key; a dict has at most one). -/
def dictLookup {α : Type} (k : String) : List (String × α) → Option α
  | [] => none
  | (k', v) :: rest => if k' = k then some v else dictLookup k rest

/-- Python dict assignment `d[k] = v`: replace the entry in place if the key is
present, otherwise append the new entry at the end (insertion order). -/
def dictInsert {α : Type} (k : String) (v : α) : List (String × α) → List (String × α)
  | [] => [(k, v)]
  | (k', v') :: rest => if k' = k then (k, v) :: rest else (k', v') :: dictInsert k v rest

/-- Python dict deletion `del d[k]` (a no-op when the key is absent, callers
guard with `in`): remove the first entry carrying the key. -/
def dictRemove {α : Type} (k : String) : List (String × α) → List (String × α)
  | [] => []
  | (k', v') :: rest => if k' = k then rest else (k', v') :: dictRemove k rest

/-- The keys of an association list, in order. -/
def dictKeys {α : Type} (l : List (String × α)) : List String := l.map Prod.fst

/-- A dict built by keying values by `f` (as the Python code always does with
`node.id` / `edge.id`): every entry's key is the `f` of its value, and keys
are free of duplicates. -/
def keyedBy {α : Type} (f : α → String) (l : List (String × α)) : Prop :=
  (∀ p ∈ l, p.1 = f p.2) ∧ (dictKeys l).Nodup

instance {α : Type} (f : α → String) (l : List (String × α)) : Decidable (keyedBy f l) := by
  unfold keyedBy
  infer_instance

theorem dictLookup_insert_self {α : Type} (k : String) (v : α) (l : List (String × α)) :
    dictLookup k (dictInsert k v l) = some v := by
  induction l with
  | nil => simp [dictInsert, dictLookup]
  | cons p rest ih =>
    obtain ⟨k', v'⟩ := p
    by_cases h : k' = k
    · subst h; simp [dictInsert, dictLookup]
    · simp [dictInsert, dictLookup, h, ih]

theorem dictLookup_insert_ne {α : Type} (j k : String) (v : α) (l : List (String × α))
    (h : j ≠ k) : dictLookup j (dictInsert k v l) = dictLookup j l := by
  induction l with
  | nil => simp [dictInsert, dictLookup, Ne.symm h]
  | cons p rest ih =>
    obtain ⟨k', v'⟩ := p
    by_cases hk : k' = k
    · subst hk
      simp only [dictInsert, if_pos rfl]
      simp [dictLookup, Ne.symm h]
    · by_cases hj : k' = j
      · subst hj; simp [dictInsert, dictLookup, hk]
      · simp [dictInsert, dictLookup, hk, hj, ih]

theorem mem_dictInsert_self {α : Type} (k : String) (v : α) (l : List (String × α)) :
    (k, v) ∈ dictInsert k v l := by
  induction l with
  | nil => simp [dictInsert]
  | cons p rest ih =>
    obtain ⟨k', v'⟩ := p
    by_cases h : k' = k
    · subst h; simp [dictInsert]
    · simp [dictInsert, h, ih]

theorem dictKeys_insert {α : Type} (k : String) (v : α) (l : List (String × α)) :
    dictKeys (dictInsert k v l) = if k ∈ dictKeys l then dictKeys l else dictKeys l ++ [k] := by
  induction l with
  | nil => simp [dictInsert, dictKeys]
  | cons p rest ih =>
    obtain ⟨k', v'⟩ := p
    by_cases h : k' = k
    · subst h; simp [dictInsert, dictKeys]
    · have hne : ¬ k = k' := fun hh => h hh.symm
      simp only [dictInsert, if_neg h]
      simp only [dictKeys, List.map_cons] at ih ⊢
      rw [ih]
      by_cases hm : k ∈ List.map Prod.fst rest
      · simp [hm, hne]
      · simp [hm, hne]

theorem keyedBy_insert_entries {α : Type} (f : α → String) (v : α) (l : List (String × α))
    (hkey : ∀ p ∈ l, p.1 = f p.2) : ∀ p ∈ dictInsert (f v) v l, p.1 = f p.2 := by
  induction l with
  | nil =>
    intro p hp
    simp [dictInsert] at hp
    simp [hp]
  | cons q rest ih =>
    obtain ⟨k', v'⟩ := q
    intro p hp
    by_cases hk : k' = f v
    · subst hk
      simp [dictInsert] at hp
      rcases hp with hp | hp
      · simp [hp]
      · exact hkey p (List.mem_cons_of_mem _ hp)
    · simp only [dictInsert, if_neg hk, List.mem_cons] at hp
      rcases hp with hp | hp
      · exact hkey p (by simp [hp])
      · exact ih (fun q hq => hkey q (List.mem_cons_of_mem _ hq)) p hp

theorem keyedBy_insert {α : Type} (f : α → String) (v : α) (l : List (String × α))
    (h : keyedBy f l) : keyedBy f (dictInsert (f v) v l) := by
  obtain ⟨hkey, hnd⟩ := h
  refine ⟨keyedBy_insert_entries f v l hkey, ?_⟩
  rw [dictKeys_insert]
  by_cases hm : f v ∈ dictKeys l
  · simpa [hm] using hnd
  · simp only [if_neg hm]
    refine List.Nodup.append hnd (List.nodup_singleton _) ?_
    intro a ha hb
    simp at hb
    subst hb
    exact hm ha

theorem dictLookup_isSome_iff {α : Type} (k : String) (l : List (String × α)) :
    (dictLookup k l).isSome = true ↔ k ∈ dictKeys l := by
  induction l with
  | nil => simp [dictLookup, dictKeys]
  | cons p rest ih =>
    obtain ⟨k', v'⟩ := p
    by_cases h : k' = k
    · subst h; simp [dictLookup, dictKeys]
    · have hne : ¬ k = k' := fun hh => h hh.symm
      simp only [dictLookup, if_neg h, dictKeys, List.map_cons, List.mem_cons]
      rw [ih]
      simp [dictKeys, hne]

theorem dictLookup_eq_none_iff {α : Type} (k : String) (l : List (String × α)) :
    dictLookup k l = none ↔ k ∉ dictKeys l := by
  rw [← dictLookup_isSome_iff]
  cases dictLookup k l <;> simp

theorem dictRemove_eq_filter {α : Type} (k : String) (l : List (String × α))
    (h : (dictKeys l).Nodup) : dictRemove k l = l.filter (fun p => p.1 != k) := by
  induction l with
  | nil => simp [dictRemove]
  | cons p rest ih =>
    obtain ⟨k', v'⟩ := p
    simp only [dictKeys, List.map_cons, List.nodup_cons] at h
    by_cases hk : k' = k
    · subst hk
      have h1 : dictRemove k' ((k', v') :: rest) = rest := by simp [dictRemove]
      have h2 : List.filter (fun p => p.1 != k') ((k', v') :: rest)
          = List.filter (fun p => p.1 != k') rest := by
        simp [List.filter_cons]
      rw [h1, h2]
      symm
      rw [List.filter_eq_self]
      intro p hp
      simp only [bne_iff_ne, ne_eq]
      intro hq
      exact h.1 (hq ▸ List.mem_map_of_mem Prod.fst hp)
    · simp only [dictRemove, if_neg hk, List.filter_cons]
      rw [ih h.2]
      simp [bne_iff_ne, hk]

theorem dictKeys_filter_sublist {α : Type} (q : String × α → Bool) (l : List (String × α)) :
    (dictKeys (l.filter q)).Sublist (dictKeys l) := by
  simpa [dictKeys] using List.Sublist.map Prod.fst (List.filter_sublist l)

theorem dictKeys_filter_nodup {α : Type} (q : String × α → Bool) (l : List (String × α))
    (h : (dictKeys l).Nodup) : (dictKeys (l.filter q)).Nodup :=
  (dictKeys_filter_sublist q l).nodup h

theorem foldl_dictRemove_eq_filter {α : Type} (ids : List String) (l : List (String × α))
    (h : (dictKeys l).Nodup) :
    ids.foldl (fun d k => dictRemove k d) l = l.filter (fun p => !(ids.contains p.1)) := by
  induction ids generalizing l with
  | nil => simp
  | cons k ks ih =>
    simp only [List.foldl_cons]
    rw [dictRemove_eq_filter k l h, ih _ (dictKeys_filter_nodup _ l h), List.filter_filter]
    apply List.filter_congr
    intro p _
    by_cases h1 : p.1 = k
    · simp [h1, List.contains_cons]
    · simp [h1, List.contains_cons, Ne.symm h1]

/-- The dict built by a Python dict comprehension keying each value by `f`,
such as the comprehension keying nodes by `node.id` in `Graph.__init__`. -/
def buildDict {α : Type} (f : α → String) (items : List α) : List (String × α) :=
  items.foldl (fun acc v => dictInsert (f v) v acc) []

theorem keyedBy_foldl_insert {α : Type} (f : α → String) (items : List α)
    (acc : List (String × α)) (h : keyedBy f acc) :
    keyedBy f (items.foldl (fun acc v => dictInsert (f v) v acc) acc) := by
  induction items generalizing acc with
  | nil => simpa
  | cons v rest ih => exact ih _ (keyedBy_insert f v acc h)

theorem buildDict_keyedBy {α : Type} (f : α → String) (items : List α) :
    keyedBy f (buildDict f items) :=
  keyedBy_foldl_insert f items [] ⟨by simp, by simp [dictKeys]⟩

theorem dictInsert_append_of_not_mem {α : Type} (k : String) (v : α) (l : List (String × α))
    (h : k ∉ dictKeys l) : dictInsert k v l = l ++ [(k, v)] := by
  induction l with
  | nil => simp [dictInsert]
  | cons p rest ih =>
    obtain ⟨k', v'⟩ := p
    simp only [dictKeys, List.map_cons, List.mem_cons] at h
    push_neg at h
    simp only [dictInsert, if_neg (fun hh : k' = k => h.1 hh.symm)]
    simp [ih h.2]

theorem foldl_insert_of_keyedBy {α : Type} (f : α → String) (l acc : List (String × α))
    (h : keyedBy f (acc ++ l)) :
    (l.map Prod.snd).foldl (fun a v => dictInsert (f v) v a) acc = acc ++ l := by
  induction l generalizing acc with
  | nil => simp
  | cons p rest ih =>
    obtain ⟨k, v⟩ := p
    have hk : k = f v := h.1 (k, v) (by simp)
    have hnotin : f v ∉ dictKeys acc := by
      intro hmem
      have hnd := h.2
      simp only [dictKeys, List.map_append, List.map_cons] at hnd
      have hdisj := (List.nodup_append.mp hnd).2.2
      refine hdisj (by simpa [dictKeys] using hmem) ?_
      rw [← hk]
      exact List.mem_cons_self _ _
    simp only [List.map_cons, List.foldl_cons]
    rw [dictInsert_append_of_not_mem _ _ _ hnotin]
    have : acc ++ [(f v, v)] ++ rest = acc ++ ((k, v) :: rest) := by
      simp [hk]
    rw [ih (acc ++ [(f v, v)]) (by rw [this]; exact h)]
    simp [hk]

/-- Rebuilding a dict from its value list by key `f` returns the dict itself. -/
theorem buildDict_roundtrip {α : Type} (f : α → String) (l : List (String × α))
    (h : keyedBy f l) : buildDict f (l.map Prod.snd) = l := by
  simpa using foldl_insert_of_keyedBy f l [] (by simpa)

/-! Data model of `graph.json` (`core/types/graph.py`). -/

/-- A node position (`Position`), with the source's `float` coordinates. -/
structure Position where
  x : Float
  y : Float

/-- The `data` payload of a graph node (`graphNodeData`). -/
structure graphNodeData where
  label : String
  simulation_id : String

/-- A graph node (`GraphNode`). -/
structure GraphNode where
  id : String
  position : Position
  data : graphNodeData
  type : String

/-- A graph edge (`GraphEdge`). -/
structure GraphEdge where
  id : String
  source : String
  target : String
  type : String
deriving DecidableEq

/-- The serialized graph (`GraphData`): the parsed content of a `graph.json`
file.  JSON (de)serialization is embedded structurally: reading a file whose
dump was produced from a `GraphData` yields that `GraphData` back. -/
structure GraphData where
  nodes : List GraphNode
  edges : List GraphEdge

/-! The in-memory graph model (`core/modules/graph/model.py`).  The two
Python dicts `_nodes` and `_edges` are embedded as association lists with
insertion-order dict semantics. -/

/-- The in-memory `Graph`: `_nodes` and `_edges` are dicts keyed by id. -/
structure Graph where
  _nodes : List (String × GraphNode)
  _edges : List (String × GraphEdge)

/-- Python `InvalidEdgeError`: raised when adding an edge with an absent endpoint. -/
inductive InvalidEdgeError where
  | mk
deriving DecidableEq

/-- The fixed message carried by `InvalidEdgeError`. -/
def InvalidEdgeError.message : InvalidEdgeError → String :=
  fun _ => "Cannot add edge connected to non-existent node"

/-- Python `Graph.__init__(nodes, edges)`: build both dicts keyed by id via the two
dict comprehensions. -/
def Graph.init (nodes : List GraphNode) (edges : List GraphEdge) : Graph :=
  { _nodes := buildDict GraphNode.id nodes, _edges := buildDict GraphEdge.id edges }

/-- The `nodes` property: the dict's value list. -/
def Graph.nodes (g : Graph) : List GraphNode := g._nodes.map Prod.snd

/-- The `edges` property: the dict's value list. -/
def Graph.edges (g : Graph) : List GraphEdge := g._edges.map Prod.snd

/-- Python `Graph.add_node`: `self._nodes[node.id] = node`. -/
def Graph.add_node (g : Graph) (node : GraphNode) : Graph :=
  { g with _nodes := dictInsert node.id node g._nodes }

/-- Python `Graph.remove_edge`: `if edge_id in self._edges: del self._edges[edge_id]`
(deleting the entry is a no-op when the key is absent). -/
def Graph.remove_edge (g : Graph) (edge_id : String) : Graph :=
  { g with _edges := dictRemove edge_id g._edges }

/-- Python `Graph.remove_node`: when the node is present, delete it and then remove
every edge whose source or target is the node id (collecting the connected
edge ids from `self.edges` and removing each by id). -/
def Graph.remove_node (g : Graph) (node_id : String) : Graph :=
  if (dictLookup node_id g._nodes).isSome then
    let g1 : Graph := { g with _nodes := dictRemove node_id g._nodes }
    let connected_edge_ids :=
      (g1.edges.filter (fun e => e.source == node_id || e.target == node_id)).map
        (fun e => e.id)
    connected_edge_ids.foldl (fun acc eid => acc.remove_edge eid) g1
  else g

/-- Python `Graph.add_edge`: raise `InvalidEdgeError` when an endpoint is absent,
otherwise `self._edges[edge.id] = edge`.  The raising method is embedded as
returning the raised error (if any) next to the post-state; a raise leaves
the graph as it was. -/
def Graph.add_edge (g : Graph) (edge : GraphEdge) : Option InvalidEdgeError × Graph :=
  if (dictLookup edge.source g._nodes).isNone || (dictLookup edge.target g._nodes).isNone then
    (some InvalidEdgeError.mk, g)
  else
    (none, { g with _edges := dictInsert edge.id edge g._edges })

/-- Python `Graph._validate_edge`: both endpoints are present. -/
def Graph._validate_edge (g : Graph) (edge : GraphEdge) : Bool :=
  (dictLookup edge.source g._nodes).isSome && (dictLookup edge.target g._nodes).isSome

/-- Python `Graph.validate`: no orphaned edges. -/
def Graph.validate (g : Graph) : Bool :=
  g.edges.all (fun e => (dictLookup e.source g._nodes).isSome
    && (dictLookup e.target g._nodes).isSome)

/-- Python `Graph.heal`: collect the ids of the orphaned edges, then remove each. -/
def Graph.heal (g : Graph) : Graph :=
  let orphaned_edge_ids :=
    (g.edges.filter (fun e => !(g._validate_edge e))).map (fun e => e.id)
  orphaned_edge_ids.foldl (fun acc eid => acc.remove_edge eid) g

/-- Python `Graph.to_graph_data`: export the value lists. -/
def Graph.to_graph_data (g : Graph) : GraphData :=
  { nodes := g.nodes, edges := g.edges }

/-- Python `Graph.from_file`: an absent file yields an empty graph; otherwise the
parsed node and edge lists are fed to `Graph.__init__`.  The file content is
embedded structurally as an `Option GraphData`. -/
def Graph.from_file (file : Option GraphData) : Graph :=
  match file with
  | none => Graph.init [] []
  | some data => Graph.init data.nodes data.edges

/-- The content `Graph.save_to_file` serializes into the file
(`to_graph_data`, dumped via `model_dump`). -/
def Graph.save_content (g : Graph) : GraphData := g.to_graph_data

/-- Well-formedness every Python `Graph` enjoys by construction: both dicts
are keyed by the id of their values, with no duplicate keys. -/
def Graph.WF (g : Graph) : Prop :=
  keyedBy GraphNode.id g._nodes ∧ keyedBy GraphEdge.id g._edges

instance (g : Graph) : Decidable g.WF := by
  unfold Graph.WF
  infer_instance

theorem Graph.init_WF (nodes : List GraphNode) (edges : List GraphEdge) :
    (Graph.init nodes edges).WF :=
  ⟨buildDict_keyedBy _ _, buildDict_keyedBy _ _⟩

theorem Graph.from_file_WF (file : Option GraphData) : (Graph.from_file file).WF := by
  cases file <;> exact Graph.init_WF _ _

/-! Concrete sample data used by witnesses and counterexamples. -/

/-- A sample node with id "A". -/
def nodeA : GraphNode :=
  { id := "A", position := { x := 0.0, y := 0.0 },
    data := { label := "Node A", simulation_id := "" }, type := "simulation" }

/-- A sample node with id "B". -/
def nodeB : GraphNode :=
  { id := "B", position := { x := 1.0, y := 0.0 },
    data := { label := "Node B", simulation_id := "" }, type := "simulation" }

/-- A sample node with id "C". -/
def nodeC : GraphNode :=
  { id := "C", position := { x := 2.0, y := 0.0 },
    data := { label := "Node C", simulation_id := "" }, type := "simulation" }

/-- A sample edge from A to B. -/
def edgeAB : GraphEdge := { id := "eAB", source := "A", target := "B", type := "default" }

/-- A sample edge from B to C. -/
def edgeBC : GraphEdge := { id := "eBC", source := "B", target := "C", type := "default" }

/-- A sample graph A→B→C. -/
def sampleGraphABC : Graph := Graph.init [nodeA, nodeB, nodeC] [edgeAB, edgeBC]

/-- C1: saving any well-formed graph and loading the saved file yields a graph
equal to the original, with exactly the same node and edge dicts keyed by id
(so in particular the equality also holds after healing both sides). -/
theorem C1_save_load_round_trip (g : Graph) (h : g.WF) :
    Graph.from_file (some (Graph.save_content g)) = g := by
  obtain ⟨hn, he⟩ := h
  simp only [Graph.save_content, Graph.to_graph_data, Graph.from_file, Graph.init,
    Graph.nodes, Graph.edges]
  rw [buildDict_roundtrip _ _ hn, buildDict_roundtrip _ _ he]

/-- Witness for C1 at the concrete graph A→B→C. -/
theorem C1_save_load_round_trip_witness :
    Graph.from_file (some (Graph.save_content sampleGraphABC)) = sampleGraphABC :=
  C1_save_load_round_trip sampleGraphABC (by decide)

/-! Lemmas about edge-removal loops (`remove_node`, `heal`). -/

theorem dictLookup_remove_ne {α : Type} (j k : String) (l : List (String × α))
    (h : j ≠ k) : dictLookup j (dictRemove k l) = dictLookup j l := by
  induction l with
  | nil => rfl
  | cons p rest ih =>
    obtain ⟨k', v'⟩ := p
    by_cases hk : k' = k
    · subst hk
      simp [dictRemove, dictLookup, Ne.symm h]
    · simp [dictRemove, dictLookup, hk, ih]

theorem dictLookup_remove_self {α : Type} (k : String) (l : List (String × α))
    (h : (dictKeys l).Nodup) : dictLookup k (dictRemove k l) = none := by
  rw [dictRemove_eq_filter k l h, dictLookup_eq_none_iff]
  intro hmem
  simp only [dictKeys, List.mem_map] at hmem
  obtain ⟨p, hp, hpk⟩ := hmem
  have := (List.mem_filter.mp hp).2
  rw [hpk] at this
  simp at this

theorem keyedBy_filter {α : Type} (f : α → String) (q : String × α → Bool)
    (l : List (String × α)) (h : keyedBy f l) : keyedBy f (l.filter q) :=
  ⟨fun p hp => h.1 p (List.mem_filter.mp hp).1, dictKeys_filter_nodup q l h.2⟩

theorem values_map_id_eq_dictKeys {α : Type} (f : α → String) (l : List (String × α))
    (h : ∀ p ∈ l, p.1 = f p.2) : (l.map Prod.snd).map f = dictKeys l := by
  rw [List.map_map, dictKeys]
  exact List.map_congr_left (fun p hp => (h p hp).symm)

theorem keyedBy_values_inj {α : Type} (f : α → String) (l : List (String × α))
    (h : keyedBy f l) :
    ∀ x ∈ l.map Prod.snd, ∀ y ∈ l.map Prod.snd, f x = f y → x = y := by
  have hnd : ((l.map Prod.snd).map f).Nodup := by
    rw [values_map_id_eq_dictKeys f l h.1]
    exact h.2
  exact fun x hx y hy hxy => List.inj_on_of_nodup_map hnd hx hy hxy

theorem foldl_remove_edge (ids : List String) (g : Graph) :
    ids.foldl (fun acc eid => acc.remove_edge eid) g
      = { g with _edges := ids.foldl (fun d eid => dictRemove eid d) g._edges } := by
  induction ids generalizing g with
  | nil => rfl
  | cons k ks ih =>
    simp only [List.foldl_cons]
    rw [ih]
    rfl

theorem remove_edges_by_pred (g : Graph) (P : GraphEdge → Bool)
    (h : keyedBy GraphEdge.id g._edges) :
    ((g.edges.filter P).map (fun e => e.id)).foldl (fun acc eid => acc.remove_edge eid) g
      = { g with _edges := g._edges.filter (fun p => !(P p.2)) } := by
  rw [foldl_remove_edge, foldl_dictRemove_eq_filter _ _ h.2]
  have hcore : ∀ p ∈ g._edges,
      (((g.edges.filter P).map (fun e => e.id)).contains p.1) = P p.2 := by
    intro p hp
    have hkey : p.1 = p.2.id := h.1 p hp
    have hmem : p.2 ∈ g.edges := List.mem_map_of_mem Prod.snd hp
    rw [Bool.eq_iff_iff]
    constructor
    · intro hc
      have hm : p.1 ∈ (g.edges.filter P).map (fun e => e.id) := by
        simpa [List.contains, List.elem_iff] using hc
      obtain ⟨e, he, heid⟩ := List.mem_map.mp hm
      obtain ⟨heMem, heP⟩ := List.mem_filter.mp he
      have : e = p.2 := keyedBy_values_inj _ _ h e heMem p.2 hmem (by rw [heid, hkey])
      rwa [this] at heP
    · intro hP
      have hm : p.1 ∈ (g.edges.filter P).map (fun e => e.id) := by
        rw [hkey]
        exact List.mem_map_of_mem _ (List.mem_filter.mpr ⟨hmem, hP⟩)
      simpa [List.contains, List.elem_iff] using hm
  have hpt : ∀ p ∈ g._edges,
      (!(((g.edges.filter P).map (fun e => e.id)).contains p.1)) = (!(P p.2)) := by
    intro p hp
    rw [hcore p hp]
  rw [List.filter_congr hpt]

/-- C2: removing a present node removes it together with every incident edge,
and leaves every other node and every non-incident edge untouched. -/
theorem C2_remove_node_cascades (g : Graph) (hWF : g.WF) (node_id : String)
    (hmem : (dictLookup node_id g._nodes).isSome = true) :
    dictLookup node_id (g.remove_node node_id)._nodes = none
    ∧ (∀ e ∈ (g.remove_node node_id).edges, e.source ≠ node_id ∧ e.target ≠ node_id)
    ∧ (∀ k, k ≠ node_id →
        dictLookup k (g.remove_node node_id)._nodes = dictLookup k g._nodes)
    ∧ (∀ e ∈ g.edges, e.source ≠ node_id → e.target ≠ node_id →
        e ∈ (g.remove_node node_id).edges)
    ∧ (∀ e ∈ (g.remove_node node_id).edges, e ∈ g.edges) := by
  have hrw : g.remove_node node_id
      = { g with
          _nodes := dictRemove node_id g._nodes,
          _edges := g._edges.filter
            (fun p => !(p.2.source == node_id || p.2.target == node_id)) } := by
    unfold Graph.remove_node
    rw [if_pos hmem]
    have h2 : keyedBy GraphEdge.id
        (Graph.mk (dictRemove node_id g._nodes) g._edges)._edges := hWF.2
    exact remove_edges_by_pred _ _ h2
  rw [hrw]
  refine ⟨?_, ?_, ?_, ?_, ?_⟩
  · exact dictLookup_remove_self node_id g._nodes hWF.1.2
  · intro e he
    simp only [Graph.edges, List.mem_map] at he
    obtain ⟨p, hp, hpe⟩ := he
    have := (List.mem_filter.mp hp).2
    subst hpe
    simp only [Bool.not_or, Bool.and_eq_true, Bool.not_eq_true', beq_eq_false_iff_ne] at this
    exact this
  · intro k hk
    exact dictLookup_remove_ne k node_id g._nodes hk
  · intro e he hs ht
    simp only [Graph.edges, List.mem_map] at he ⊢
    obtain ⟨p, hp, hpe⟩ := he
    refine ⟨p, List.mem_filter.mpr ⟨hp, ?_⟩, hpe⟩
    rw [hpe]
    simp [hs, ht]
  · intro e he
    simp only [Graph.edges, List.mem_map] at he ⊢
    obtain ⟨p, hp, hpe⟩ := he
    exact ⟨p, (List.mem_filter.mp hp).1, hpe⟩

/-- Witness for C2 at the concrete graph A→B→C with node B removed
(spec scenario S5). -/
theorem C2_remove_node_cascades_witness :
    dictLookup "B" (sampleGraphABC.remove_node "B")._nodes = none
    ∧ (∀ e ∈ (sampleGraphABC.remove_node "B").edges, e.source ≠ "B" ∧ e.target ≠ "B")
    ∧ (∀ k, k ≠ "B" →
        dictLookup k (sampleGraphABC.remove_node "B")._nodes
          = dictLookup k sampleGraphABC._nodes)
    ∧ (∀ e ∈ sampleGraphABC.edges, e.source ≠ "B" → e.target ≠ "B" →
        e ∈ (sampleGraphABC.remove_node "B").edges)
    ∧ (∀ e ∈ (sampleGraphABC.remove_node "B").edges, e ∈ sampleGraphABC.edges) :=
  C2_remove_node_cascades sampleGraphABC (by decide) "B" (by decide)

/-- C3: adding an edge whose endpoints are both present stores it retrievably
by its id and raises nothing; adding an edge with a missing endpoint raises
`InvalidEdgeError` and leaves both the node dict and the edge dict of the
graph unchanged. -/
theorem C3_add_edge_endpoints (g : Graph) (e : GraphEdge) :
    ((dictLookup e.source g._nodes).isSome = true
      → (dictLookup e.target g._nodes).isSome = true
      → (g.add_edge e).1 = none
        ∧ dictLookup e.id (g.add_edge e).2._edges = some e
        ∧ (g.add_edge e).2._nodes = g._nodes)
    ∧ (((dictLookup e.source g._nodes).isNone = true
        ∨ (dictLookup e.target g._nodes).isNone = true)
      → (g.add_edge e).1 = some InvalidEdgeError.mk ∧ (g.add_edge e).2 = g) := by
  constructor
  · intro hs ht
    have hcond : ((dictLookup e.source g._nodes).isNone
        || (dictLookup e.target g._nodes).isNone) = false := by
      simp only [Bool.or_eq_false_iff]
      constructor
      · cases hl : dictLookup e.source g._nodes
        · rw [hl] at hs; simp at hs
        · simp
      · cases hl : dictLookup e.target g._nodes
        · rw [hl] at ht; simp at ht
        · simp
    unfold Graph.add_edge
    rw [if_neg (by simp [hcond])]
    exact ⟨rfl, dictLookup_insert_self e.id e g._edges, rfl⟩
  · intro hbad
    have hcond : ((dictLookup e.source g._nodes).isNone
        || (dictLookup e.target g._nodes).isNone) = true := by
      rcases hbad with hbad | hbad <;> simp [hbad]
    unfold Graph.add_edge
    rw [if_pos hcond]
    exact ⟨rfl, rfl⟩

/-- A sample edge from B to C with a fresh id, both endpoints present. -/
def edgeBC2 : GraphEdge := { id := "e2", source := "B", target := "C", type := "default" }

/-- A sample edge from A to the absent node D. -/
def edgeAD : GraphEdge := { id := "e3", source := "A", target := "D", type := "default" }

/-- Witness for C3: both branches at concrete inputs — edge B→C into the
graph A→B→C (both endpoints present), and an edge A→D with D absent. -/
theorem C3_add_edge_endpoints_witness :
    ((sampleGraphABC.add_edge edgeBC2).1 = none
      ∧ dictLookup "e2" (sampleGraphABC.add_edge edgeBC2).2._edges = some edgeBC2
      ∧ (sampleGraphABC.add_edge edgeBC2).2._nodes = sampleGraphABC._nodes)
    ∧ ((sampleGraphABC.add_edge edgeAD).1 = some InvalidEdgeError.mk
      ∧ (sampleGraphABC.add_edge edgeAD).2 = sampleGraphABC) :=
  ⟨(C3_add_edge_endpoints sampleGraphABC edgeBC2).1 (by decide) (by decide),
   (C3_add_edge_endpoints sampleGraphABC edgeAD).2 (Or.inr (by decide))⟩

/-! Healing. -/

theorem heal_edges (g : Graph) (h : keyedBy GraphEdge.id g._edges) :
    g.heal = { g with _edges := g._edges.filter (fun p => g._validate_edge p.2) } := by
  unfold Graph.heal
  rw [remove_edges_by_pred g _ h]
  simp [Bool.not_not]

theorem heal_WF (g : Graph) (h : g.WF) : g.heal.WF := by
  rw [heal_edges g h.2]
  exact ⟨h.1, keyedBy_filter _ _ _ h.2⟩

theorem heal_validate (g : Graph) (h : g.WF) : (g.heal).validate = true := by
  rw [heal_edges g h.2]
  unfold Graph.validate Graph.edges
  rw [List.all_eq_true]
  intro e he
  simp only [List.mem_map] at he
  obtain ⟨p, hp, hpe⟩ := he
  have hv := (List.mem_filter.mp hp).2
  subst hpe
  simpa [Graph._validate_edge] using hv

/-- Whether the parsed content of a `graph.json` file contains an orphan edge
(an edge one of whose endpoints is not among the listed nodes). -/
def GraphData.hasOrphan (d : GraphData) : Bool :=
  d.edges.any (fun e => !(d.nodes.any (fun n => n.id == e.source))
    || !(d.nodes.any (fun n => n.id == e.target)))

theorem lookup_isSome_any_values {α : Type} (f : α → String) (k : String)
    (l : List (String × α)) (hkey : ∀ p ∈ l, p.1 = f p.2) :
    (dictLookup k l).isSome = (l.map Prod.snd).any (fun v => f v == k) := by
  rw [Bool.eq_iff_iff]
  constructor
  · intro hs
    rw [dictLookup_isSome_iff] at hs
    simp only [dictKeys, List.mem_map] at hs
    obtain ⟨p, hp, hpk⟩ := hs
    rw [List.any_eq_true]
    exact ⟨p.2, List.mem_map_of_mem _ hp, by rw [← hkey p hp, hpk]; simp⟩
  · intro ha
    rw [List.any_eq_true] at ha
    obtain ⟨v, hv, hfk⟩ := ha
    obtain ⟨p, hp, hpv⟩ := List.mem_map.mp hv
    rw [dictLookup_isSome_iff]
    simp only [dictKeys, List.mem_map]
    refine ⟨p, hp, ?_⟩
    rw [hkey p hp, hpv]
    exact eq_of_beq hfk

theorem validate_no_orphan (g : Graph) (h : g.WF) (hv : g.validate = true) :
    (g.to_graph_data).hasOrphan = false := by
  unfold GraphData.hasOrphan Graph.to_graph_data
  rw [List.any_eq_false]
  intro e he
  unfold Graph.validate at hv
  rw [List.all_eq_true] at hv
  have hval := hv e he
  rw [Bool.and_eq_true] at hval
  have hs := lookup_isSome_any_values GraphNode.id e.source g._nodes h.1.1
  have ht := lookup_isSome_any_values GraphNode.id e.target g._nodes h.1.1
  simp only [Graph.nodes]
  rw [← hs, ← ht, hval.1, hval.2]
  decide

/-! The graph processor (`core/modules/graph/processor.py`).  Each operation
acts on the project's `graph.json` file content, embedded as
`Option GraphData` (`none` when the file does not exist). -/

/-- Python `GraphProcessor.get_graph`: load the file, heal, and return the data.
(The surrounding try/except returns an empty graph only when loading
raises, which the structural embedding of the file content cannot.) -/
def GraphProcessor.get_graph (file : Option GraphData) : GraphData :=
  ((Graph.from_file file).heal).to_graph_data

/-- Python `GraphProcessor.update_node_position`: load (without healing), re-insert
the node, save. -/
def GraphProcessor.update_node_position (file : Option GraphData) (node : GraphNode) :
    Option GraphData :=
  some (((Graph.from_file file).add_node node).to_graph_data)

/-- Python `GraphProcessor.delete_node`: load (without healing), remove the node
(cascading its edges), save.  The best-effort removal of the node's workspace
directory touches no graph state. -/
def GraphProcessor.delete_node (file : Option GraphData) (node_id : String) :
    Option GraphData :=
  some (((Graph.from_file file).remove_node node_id).to_graph_data)

/-- Python `GraphProcessor.upsert_edge`: load (without healing), add the edge, save.
When `add_edge` raises, the save is never reached and the file is unchanged;
the raised error is returned alongside the post-state of the file. -/
def GraphProcessor.upsert_edge (file : Option GraphData) (edge : GraphEdge) :
    Option GraphData × Option InvalidEdgeError :=
  let g := Graph.from_file file
  match g.add_edge edge with
  | (some err, _) => (file, some err)
  | (none, g2) => (some g2.to_graph_data, none)

/-- Python `GraphProcessor.delete_edge`: load (without healing), remove the edge,
save. -/
def GraphProcessor.delete_edge (file : Option GraphData) (edge_id : String) :
    Option GraphData :=
  some (((Graph.from_file file).remove_edge edge_id).to_graph_data)

/-- A `graph.json` content with node A and a single orphan edge A→B
(B is absent). -/
def orphanFile : GraphData := { nodes := [nodeA], edges := [edgeAB] }

/-- Counterexample to C4: `delete_edge` (like every mutating processor
operation) loads without healing, so deleting an absent edge id from a file
containing an orphan edge re-saves the orphan edge — refuting "no operation
ever observes or re-saves a graph containing orphan edges". -/
theorem C4_counterexample :
    (GraphProcessor.delete_edge (some orphanFile) "other").map GraphData.hasOrphan
      = some true := by decide

/-- C4 as amended: only `get_graph` heals the loaded graph before returning
it, so the graph it returns never contains an orphan edge; the mutating
operations load, mutate and save without healing. -/
theorem C4_amended_get_graph_heals (file : Option GraphData) :
    (GraphProcessor.get_graph file).hasOrphan = false := by
  unfold GraphProcessor.get_graph
  exact validate_no_orphan _ (heal_WF _ (Graph.from_file_WF file))
    (heal_validate _ (Graph.from_file_WF file))

/-! `GraphProcessor.insert_node`.  Besides the graph file, the operation
touches the filesystem: it checks the template's metadata file, copies the
template directory, or initializes an empty node workspace.  Those effects
are embedded in an explicit state. -/

/-- The filesystem state `insert_node` interacts with: the graph file, the
set of simulation ids whose template metadata file exists
(`DataLoader.check_file_exists` on `simulation_path / metadata file`), the
directory copies performed so far (`DataLoader.copy_directory`, as
(simulation id, node id) pairs), and the node directories initialized so far
(`_initialize_node_directory`). -/
structure InsertState where
  graph_file : Option GraphData
  templates : List String
  copied : List (String × String)
  initialized : List String

/-- The error raised when the template's metadata file is absent: the spec's
`TemplateNotFound` (surfaced in Python as a `ValueError` chain raised by
`_raise_simulation_not_found_error` and re-wrapped by
`_raise_copy_template_error`). -/
inductive InsertNodeError where
  | template_not_found (simulation_id : String)
deriving DecidableEq

/-- Python `GraphProcessor.insert_node`: load the graph file (without healing), add
the node, save; then, when the node carries a non-empty `simulation_id`,
check the template's metadata file and copy the template directory (raising
when the metadata file is absent, before any copy); otherwise initialize an
empty node workspace.  A raise is returned alongside the post-state. -/
def GraphProcessor.insert_node (st : InsertState) (node : GraphNode) :
    InsertState × Option InsertNodeError :=
  let graph := Graph.from_file st.graph_file
  let graph := graph.add_node node
  let st1 : InsertState := { st with graph_file := some graph.to_graph_data }
  if node.data.simulation_id != "" then
    if st1.templates.contains node.data.simulation_id then
      ({ st1 with copied := st1.copied ++ [(node.data.simulation_id, node.id)] }, none)
    else
      (st1, some (InsertNodeError.template_not_found node.data.simulation_id))
  else
    ({ st1 with initialized := st1.initialized ++ [node.id] }, none)

/-- C5: inserting a node with a non-empty `simulation_id` whose template
metadata file does not exist raises `TemplateNotFound`, performs no directory
copy, materializes no node workspace — and the saved graph file already
contains the inserted node, because the graph is written before template
validation. -/
theorem C5_insert_node_template_missing (st : InsertState) (node : GraphNode)
    (hsim : node.data.simulation_id ≠ "")
    (hmissing : node.data.simulation_id ∉ st.templates) :
    (GraphProcessor.insert_node st node).2
      = some (InsertNodeError.template_not_found node.data.simulation_id)
    ∧ (GraphProcessor.insert_node st node).1.copied = st.copied
    ∧ (GraphProcessor.insert_node st node).1.initialized = st.initialized
    ∧ (∃ d, (GraphProcessor.insert_node st node).1.graph_file = some d
        ∧ node ∈ d.nodes) := by
  have hb : (node.data.simulation_id != "") = true := by
    simpa using hsim
  have hc : st.templates.contains node.data.simulation_id = false := by
    simpa using hmissing
  unfold GraphProcessor.insert_node
  rw [if_pos hb, if_neg (by simpa using hmissing)]
  refine ⟨rfl, rfl, rfl, ⟨_, rfl, ?_⟩⟩
  simp only [Graph.to_graph_data, Graph.nodes, Graph.add_node]
  exact List.mem_map_of_mem Prod.snd (mem_dictInsert_self node.id node _)

/-- A node whose `simulation_id` names an absent template (spec scenario S4). -/
def nodeNope : GraphNode :=
  { id := "N", position := { x := 0.0, y := 0.0 },
    data := { label := "Node N", simulation_id := "nope" }, type := "simulation" }

/-- An insert state whose template store is empty and whose graph file is
absent. -/
def emptyInsertState : InsertState :=
  { graph_file := none, templates := [], copied := [], initialized := [] }

/-- Witness for C5 at scenario S4: inserting a node with
`simulation_id = "nope"` into a fresh project. -/
theorem C5_insert_node_template_missing_witness :
    (GraphProcessor.insert_node emptyInsertState nodeNope).2
      = some (InsertNodeError.template_not_found nodeNope.data.simulation_id)
    ∧ (GraphProcessor.insert_node emptyInsertState nodeNope).1.copied
      = emptyInsertState.copied
    ∧ (GraphProcessor.insert_node emptyInsertState nodeNope).1.initialized
      = emptyInsertState.initialized
    ∧ (∃ d, (GraphProcessor.insert_node emptyInsertState nodeNope).1.graph_file = some d
        ∧ nodeNope ∈ d.nodes) :=
  C5_insert_node_template_missing emptyInsertState nodeNope (by decide) (by decide)

/-! The local execution manager
(`core/modules/run/node/methods/local/Execute.py`). -/

/-- Modelled from the spec: the host-side run paths of a node
(`NodePaths`, declared in `core/types/runs.py`, which is not under the
sources); `input_path` is optional — it is only set when a predecessor
exists. -/
structure NodePaths where
  node_path : String
  output_path : String
  input_path : Option String

/-- Modelled from the spec: the in-container paths of a node
(`ContainerPaths`, declared in `core/types/runs.py`, which is not under the
sources); `input_path` is optional — it is only set when a predecessor
exists. -/
structure ContainerPaths where
  node_path : String
  simulation_path : String
  output_path : String
  input_path : Option String

/-- Modelled from the spec: the base execution manager (not under the
sources) resolves the node's run-scoped paths, and sets `input_path` exactly
when a predecessor node exists, pointing at the predecessor's output path
(spec §4.7 step 1). -/
def resolve_input_path (prev_node : Option String) (prev_output_path : String) :
    Option String :=
  prev_node.map (fun _ => prev_output_path)

/-- How a Python f-string renders an optional path (`None` renders as the
text "None"). -/
def pyStr : Option String → String
  | some s => s
  | none => "None"

/-- Python `LocalExecutionManager._set_input_mount_args`: a bind-mount flag for the
input directory when `node_paths.input_path` is set, the empty string
otherwise. -/
def set_input_mount_args (node_paths : NodePaths) (container_paths : ContainerPaths) :
    String :=
  match node_paths.input_path with
  | some ip => "-v " ++ ip ++ ":" ++ pyStr container_paths.input_path
  | none => ""

/-- Python `LocalExecutionManager._build_environment_vars`: the five fixed variables
in insertion order, plus `FLUIDIZE_INPUT_PATH` appended only when
`container_paths.input_path` is set. -/
def build_environment_vars (node_id : String) (container_paths : ContainerPaths) :
    List (String × String) :=
  let env_vars := [
    ("FLUIDIZE_NODE_ID", node_id),
    ("FLUIDIZE_NODE_PATH", container_paths.node_path),
    ("FLUIDIZE_SIMULATION_PATH", container_paths.simulation_path),
    ("FLUIDIZE_OUTPUT_PATH", container_paths.output_path),
    ("FLUIDIZE_EXECUTION_MODE", "local_docker")]
  match container_paths.input_path with
  | some ip => env_vars ++ [("FLUIDIZE_INPUT_PATH", ip)]
  | none => env_vars

/-- The `env_args` string: `-e KEY=VALUE` flags joined by single spaces. -/
def env_args_of (env_vars : List (String × String)) : String :=
  String.intercalate " " (env_vars.map (fun kv => "-e " ++ kv.1 ++ "=" ++ kv.2))

/-- The docker command built by `LocalExecutionManager.run_container`,
segment for segment as in the source's f-string; the string is then handed
to `ProcessExecutor.execute_with_logging`. -/
def run_container_cmd (node_id container_image : String) (node_paths : NodePaths)
    (container_paths : ContainerPaths) : String :=
  let input_mount_args := set_input_mount_args node_paths container_paths
  let output_mount_args :=
    "-v " ++ node_paths.output_path ++ ":" ++ container_paths.output_path
  let env_args := env_args_of (build_environment_vars node_id container_paths)
  "docker run --rm "
    ++ ("-v " ++ node_paths.node_path ++ ":" ++ container_paths.node_path ++ " ")
    ++ (input_mount_args ++ " ")
    ++ (output_mount_args ++ " ")
    ++ (env_args ++ " ")
    ++ ("--workdir " ++ container_paths.simulation_path ++ " ")
    ++ "--entrypoint /bin/bash "
    ++ (container_image ++ " ")
    ++ (container_paths.node_path ++ "/main.sh")

/-- C6: for a container invocation of a node with an optional predecessor,
`FLUIDIZE_INPUT_PATH` is set iff the predecessor exists (and the input
bind-mount flag is produced iff it exists); the five fixed variables are
always set, with `FLUIDIZE_EXECUTION_MODE = local_docker`; the command sets
the working directory to the simulation path, overrides the entrypoint to
run `/bin/bash <node_path>/main.sh`, and removes the container on exit
(`docker run --rm`). -/
theorem C6_container_invocation (node_id container_image : String)
    (prev_node : Option String) (prev_output_path : String)
    (np_node np_out cp_node cp_sim cp_out : String) :
    (("FLUIDIZE_NODE_ID", node_id)
        ∈ build_environment_vars node_id
          ⟨cp_node, cp_sim, cp_out, resolve_input_path prev_node prev_output_path⟩
      ∧ ("FLUIDIZE_NODE_PATH", cp_node)
        ∈ build_environment_vars node_id
          ⟨cp_node, cp_sim, cp_out, resolve_input_path prev_node prev_output_path⟩
      ∧ ("FLUIDIZE_SIMULATION_PATH", cp_sim)
        ∈ build_environment_vars node_id
          ⟨cp_node, cp_sim, cp_out, resolve_input_path prev_node prev_output_path⟩
      ∧ ("FLUIDIZE_OUTPUT_PATH", cp_out)
        ∈ build_environment_vars node_id
          ⟨cp_node, cp_sim, cp_out, resolve_input_path prev_node prev_output_path⟩
      ∧ ("FLUIDIZE_EXECUTION_MODE", "local_docker")
        ∈ build_environment_vars node_id
          ⟨cp_node, cp_sim, cp_out, resolve_input_path prev_node prev_output_path⟩)
    ∧ ((∃ v, ("FLUIDIZE_INPUT_PATH", v)
        ∈ build_environment_vars node_id
          ⟨cp_node, cp_sim, cp_out, resolve_input_path prev_node prev_output_path⟩)
      ↔ prev_node.isSome = true)
    ∧ (set_input_mount_args
        ⟨np_node, np_out, resolve_input_path prev_node prev_output_path⟩
        ⟨cp_node, cp_sim, cp_out, resolve_input_path prev_node prev_output_path⟩ ≠ ""
      ↔ prev_node.isSome = true)
    ∧ (∃ pre, run_container_cmd node_id container_image
        ⟨np_node, np_out, resolve_input_path prev_node prev_output_path⟩
        ⟨cp_node, cp_sim, cp_out, resolve_input_path prev_node prev_output_path⟩
      = pre ++ ("--workdir " ++ cp_sim ++ " ") ++ "--entrypoint /bin/bash "
          ++ (container_image ++ " ") ++ (cp_node ++ "/main.sh"))
    ∧ (∃ rest, run_container_cmd node_id container_image
        ⟨np_node, np_out, resolve_input_path prev_node prev_output_path⟩
        ⟨cp_node, cp_sim, cp_out, resolve_input_path prev_node prev_output_path⟩
      = "docker run --rm " ++ rest) := by
  refine ⟨?_, ?_, ?_, ?_, ?_⟩
  · cases prev_node <;>
      simp [build_environment_vars, resolve_input_path]
  · cases prev_node <;>
      simp [build_environment_vars, resolve_input_path]
  · cases prev_node with
    | none => simp [set_input_mount_args, resolve_input_path, pyStr]
    | some a =>
      simp only [set_input_mount_args, resolve_input_path, pyStr, Option.map_some',
        Option.isSome_some, iff_true, ne_eq]
      intro h
      have hlen := congrArg String.length h
      rw [String.length_append, String.length_append, String.length_append] at hlen
      have h3 : ("-v " : String).length = 3 := rfl
      have h0 : ("" : String).length = 0 := rfl
      omega
  · exact ⟨_, rfl⟩
  · refine ⟨("-v " ++ np_node ++ ":" ++ cp_node ++ " ")
      ++ ((set_input_mount_args
            ⟨np_node, np_out, resolve_input_path prev_node prev_output_path⟩
            ⟨cp_node, cp_sim, cp_out, resolve_input_path prev_node prev_output_path⟩) ++ " ")
      ++ (("-v " ++ np_out ++ ":" ++ cp_out) ++ " ")
      ++ ((env_args_of (build_environment_vars node_id
            ⟨cp_node, cp_sim, cp_out, resolve_input_path prev_node prev_output_path⟩)) ++ " ")
      ++ ("--workdir " ++ cp_sim ++ " ")
      ++ "--entrypoint /bin/bash "
      ++ (container_image ++ " ")
      ++ (cp_node ++ "/main.sh"), ?_⟩
    simp only [run_container_cmd, String.append_assoc]

/-! The process executor with log streaming
(`core/modules/logging/process_executor.py`).  The child process's behavior
is an oracle: either it launches and yields a list of raw output lines and a
return code, or an exception is raised (at launch or mid-stream) after some
lines were already streamed.  A broadcast appends an event to the returned
event list; the broadcaster itself (`log_broadcaster`, out of scope) is the
injected sink. -/

/-- The observable behavior of the child process. -/
inductive ProcBehavior where
  | ok (lines : List String) (returncode : Int)
  | exn (lines : List String) (message : String)

/-- One event handed to `log_broadcaster.broadcast_log_sync`. -/
structure LogEvent where
  run_id : String
  node_id : Option String
  message : String
  level : String
deriving DecidableEq

/-- Python truthiness of the optional `run_id` string (`if self.run_id:`):
`None` and the empty string are falsy. -/
def truthyOpt : Option String → Bool
  | none => false
  | some s => s != ""

/-- Python `line.rstrip` with a newline argument: drop all trailing newline
characters. -/
def rstripNewlines (s : String) : String :=
  String.mk ((s.data.reverse.dropWhile (fun c => c == '\n')).reverse)

/-- The event built for a broadcast call. -/
def mkLogEvent (run_id : Option String) (node_id : Option String)
    (message level : String) : LogEvent :=
  { run_id := run_id.getD "", node_id := node_id, message := message, level := level }

/-- A broadcast guarded by `if self.run_id:`. -/
def guardBroadcast (run_id node_id : Option String) (message level : String) :
    List LogEvent :=
  if truthyOpt run_id then [mkLogEvent run_id node_id message level] else []

/-- The events emitted by the streaming loop: for each output line, after
stripping trailing newlines, broadcast it at level INFO when it is non-empty
and a run id is configured (`if line and self.run_id:`). -/
def lineEvents (run_id node_id : Option String) (lines : List String) : List LogEvent :=
  (lines.map rstripNewlines).foldr
    (fun line acc =>
      (if line != "" && truthyOpt run_id then [mkLogEvent run_id node_id line "INFO"]
       else []) ++ acc) []

/-- Python `ProcessExecutor.execute_with_logging`: broadcast `Starting`, stream the
output lines, then either broadcast `Completed` and return ("success", true)
on a zero exit code, or broadcast the error at level ERROR and return the
failure pair; every exception is caught and converted to a failure pair. -/
def execute_with_logging (run_id node_id : Option String) (command description : String)
    (proc : ProcBehavior) : List LogEvent × (String × Bool) :=
  let startEvs := guardBroadcast run_id node_id ("Starting: " ++ description) "INFO"
  match proc with
  | ProcBehavior.ok lines returncode =>
    let evs := startEvs ++ lineEvents run_id node_id lines
    if returncode == 0 then
      (evs ++ guardBroadcast run_id node_id ("Completed: " ++ description) "INFO",
       ("success", true))
    else
      let error_msg := description ++ " failed with return code: " ++ toString returncode
      (evs ++ guardBroadcast run_id node_id error_msg "ERROR",
       ("failure: " ++ error_msg, false))
  | ProcBehavior.exn lines message =>
    let evs := startEvs ++ lineEvents run_id node_id lines
    let error_msg := description ++ " failed: " ++ message
    (evs ++ guardBroadcast run_id node_id error_msg "ERROR",
     ("failure: " ++ error_msg, false))

theorem lineEvents_none (node_id : Option String) (lines : List String) :
    lineEvents none node_id lines = [] := by
  unfold lineEvents
  induction lines.map rstripNewlines with
  | nil => rfl
  | cons x xs ih => simp [truthyOpt, ih]

theorem foldr_guard_eq (r : String) (hr : r ≠ "") (node_id : Option String)
    (ls : List String) :
    ls.foldr
      (fun line acc =>
        (if line != "" && truthyOpt (some r) then [mkLogEvent (some r) node_id line "INFO"]
         else []) ++ acc) []
      = (ls.filter (fun l => l != "")).map (fun l => mkLogEvent (some r) node_id l "INFO") := by
  induction ls with
  | nil => rfl
  | cons x xs ih =>
    simp only [List.foldr_cons, ih, List.filter_cons]
    by_cases hx : (x != "") = true
    · simp [hx, truthyOpt, hr]
    · simp [hx]

theorem lineEvents_some (r : String) (hr : r ≠ "") (node_id : Option String)
    (lines : List String) :
    lineEvents (some r) node_id lines
      = ((lines.map rstripNewlines).filter (fun l => l != "")).map
          (fun l => mkLogEvent (some r) node_id l "INFO") := by
  unfold lineEvents
  exact foldr_guard_eq r hr node_id (lines.map rstripNewlines)

/-- Counterexample to C7 as stated ("for every command execution a Starting
event is emitted, then one INFO-tagged log event per line of output"):
with no run id configured, no events at all are emitted (first conjunct);
and with a run id configured, a child that outputs the two lines "\n" and
"hello\n" produces no log event at all for its first (empty) line — only 3
events total instead of the claimed 4 (second and third conjuncts). -/
theorem C7_counterexample :
    (execute_with_logging none none "docker run img" "Docker execution"
        (ProcBehavior.ok ["hello\n"] 0)).1 = []
    ∧ ((execute_with_logging (some "run1") (some "n1") "docker run img"
        "Docker execution" (ProcBehavior.ok ["\n", "hello\n"] 0)).1.filter
          (fun ev => ev.message == "")).length = 0
    ∧ (execute_with_logging (some "run1") (some "n1") "docker run img"
        "Docker execution" (ProcBehavior.ok ["\n", "hello\n"] 0)).1.length = 3 := by
  decide

/-- C7 as amended: when a run id is configured, the executor emits a
`Starting: <description>` event, then one INFO event per non-empty stripped
output line in the order read, then `Completed` (INFO) on a zero exit code
or an ERROR event otherwise; with no run id configured, no events are
emitted.  The call returns ("success", true) iff the exit code is zero and
otherwise a message beginning with "failure:" paired with false. -/
theorem C7_amended_streaming (r : String) (hr : r ≠ "") (node_id : Option String)
    (command description : String) (lines : List String) (returncode : Int) :
    ((execute_with_logging (some r) node_id command description
        (ProcBehavior.ok lines returncode)).1
      = mkLogEvent (some r) node_id ("Starting: " ++ description) "INFO"
        :: (((lines.map rstripNewlines).filter (fun l => l != "")).map
              (fun l => mkLogEvent (some r) node_id l "INFO")
          ++ [if returncode == 0 then
                mkLogEvent (some r) node_id ("Completed: " ++ description) "INFO"
              else
                mkLogEvent (some r) node_id
                  (description ++ " failed with return code: " ++ toString returncode)
                  "ERROR"]))
    ∧ ((execute_with_logging (some r) node_id command description
        (ProcBehavior.ok lines returncode)).2 = ("success", true) ↔ returncode = 0)
    ∧ (returncode ≠ 0 → ∃ m, (execute_with_logging (some r) node_id command description
        (ProcBehavior.ok lines returncode)).2 = ("failure:" ++ m, false))
    ∧ (execute_with_logging none node_id command description
        (ProcBehavior.ok lines returncode)).1 = [] := by
  have ht : truthyOpt (some r) = true := by simp [truthyOpt, hr]
  refine ⟨?_, ?_, ?_, ?_⟩
  · by_cases h0 : (returncode == 0) = true
    · simp [execute_with_logging, guardBroadcast, ht, lineEvents_some r hr, h0]
    · simp only [Bool.not_eq_true] at h0
      simp [execute_with_logging, guardBroadcast, ht, lineEvents_some r hr, h0]
  · by_cases h0 : (returncode == 0) = true
    · have : returncode = 0 := by simpa using h0
      simp [execute_with_logging, h0, this]
    · have hne : ¬ returncode = 0 := by simpa using h0
      simp only [Bool.not_eq_true] at h0
      constructor
      · intro h
        have := congrArg (fun p => p.2) h
        simp [execute_with_logging, h0] at this
      · intro h
        exact absurd h hne
  · intro hne
    have h0 : (returncode == 0) = false := by simpa using hne
    refine ⟨" " ++ (description ++ " failed with return code: " ++ toString returncode), ?_⟩
    simp only [execute_with_logging, h0, Bool.false_eq_true, if_false]
    simp [← String.append_assoc]
  · by_cases h0 : (returncode == 0) = true <;>
      simp [execute_with_logging, guardBroadcast, truthyOpt, lineEvents_none, h0]

/-- Witness for C7 as amended, at a configured run id, one output line and a
zero exit code. -/
theorem C7_amended_streaming_witness :
    ((execute_with_logging (some "run1") (some "n1") "docker run img" "Docker execution"
        (ProcBehavior.ok ["hello\n"] 0)).1
      = mkLogEvent (some "run1") (some "n1") "Starting: Docker execution" "INFO"
        :: ((((["hello\n"] : List String).map rstripNewlines).filter
              (fun l => l != "")).map
              (fun l => mkLogEvent (some "run1") (some "n1") l "INFO")
          ++ [if (0 : Int) == 0 then
                mkLogEvent (some "run1") (some "n1") "Completed: Docker execution" "INFO"
              else
                mkLogEvent (some "run1") (some "n1")
                  ("Docker execution" ++ " failed with return code: " ++ toString (0 : Int))
                  "ERROR"]))
    ∧ ((execute_with_logging (some "run1") (some "n1") "docker run img" "Docker execution"
        (ProcBehavior.ok ["hello\n"] 0)).2 = ("success", true) ↔ (0 : Int) = 0)
    ∧ ((0 : Int) ≠ 0 → ∃ m, (execute_with_logging (some "run1") (some "n1") "docker run img"
        "Docker execution" (ProcBehavior.ok ["hello\n"] 0)).2 = ("failure:" ++ m, false))
    ∧ (execute_with_logging none (some "n1") "docker run img" "Docker execution"
        (ProcBehavior.ok ["hello\n"] 0)).1 = [] := by
  have h := C7_amended_streaming "run1" (by decide) (some "n1") "docker run img"
    "Docker execution" ["hello\n"] 0
  obtain ⟨h1, h2, h3, h4⟩ := h
  exact ⟨by simpa using h1, h2, h3, h4⟩

/-- C10: `execute_with_logging` is total — an exception raised at launch or
during streaming is caught and converted into the return value
`("failure: <description> failed: <error>", false)`. -/
theorem C10_exception_converted (run_id node_id : Option String)
    (command description : String) (lines : List String) (err : String) :
    (execute_with_logging run_id node_id command description
        (ProcBehavior.exn lines err)).2
      = ("failure: " ++ (description ++ " failed: " ++ err), false) := rfl

/-! The local runs handler (`backends/local/runs.py`).  `run_flow` loads the
graph data, builds a directed graph, computes the execution order, and only
then — when the order is non-empty — prepares the run environment.  The
topological planner (`ProcessGraph.print_bfs_nodes`) and the run workspace
manager (`ProjectRunner.prepare_run_environment`) are not under the sources
and are modelled from the spec. -/

/-- The node ids of the built directed graph: the listed nodes in order,
then any edge endpoint not yet present (a directed-graph `add_edge` inserts
missing endpoints). -/
def graphNodeIds (data : GraphData) : List String :=
  let base := data.nodes.foldl
    (fun acc n => if acc.contains n.id then acc else acc ++ [n.id]) []
  data.edges.foldl
    (fun acc e =>
      let acc1 := if acc.contains e.source then acc else acc ++ [e.source]
      if acc1.contains e.target then acc1 else acc1 ++ [e.target]) base

/-- Modelled from the spec: one BFS layering step of Kahn's algorithm —
repeatedly emit the current roots (remaining nodes with no incoming edge
from a remaining node, in stable order) and drop them (spec §4.5).  The
fuel bounds the number of layers by the node count. -/
def kahnLayers : Nat → List String → List (String × String) → List String
  | 0, _, _ => []
  | fuel + 1, remaining, edges =>
    let roots := remaining.filter (fun n =>
      !(edges.any (fun e => e.2 == n && remaining.contains e.1)))
    if roots.isEmpty then []
    else roots ++ kahnLayers fuel (remaining.filter (fun n => !(roots.contains n))) edges

/-- Modelled from the spec: the upstream node ids of a node within the
graph (spec §4.5's predecessor map entry). -/
def predecessorsOf (edges : List (String × String)) (n : String) : List String :=
  (edges.filter (fun e => e.2 == n)).map (fun e => e.1)

/-- Modelled from the spec: `ProcessGraph.print_bfs_nodes`
(`core/modules/graph/process.py`, not under the sources) — the flat BFS
execution order together with the predecessor map (spec §4.5). -/
def print_bfs_nodes (nodes : List String) (edges : List (String × String)) :
    List String × List (String × List String) :=
  let order := kahnLayers nodes.length nodes edges
  (order, order.map (fun n => (n, predecessorsOf edges n)))

/-- The run bookkeeping of a project: the run numbers whose `run_<n>`
directories exist. -/
structure RunState where
  existing_runs : List Nat

/-- The result dictionary returned by `run_flow`. -/
structure RunFlowResult where
  flow_status : String
  run_number : Nat
deriving DecidableEq

/-- The error raised when the execution order is empty: the spec's
`NoNodesToRun` (surfaced in Python as `ValueError("No nodes to run. Please
check your graph.")`). -/
inductive RunFlowError where
  | NoNodesToRun
deriving DecidableEq

/-- Modelled from the spec: `ProjectRunner.prepare_run_environment`
(not under the sources) — allocate the next run number as one more than the
largest existing one and create the `runs/run_<n>` directory tree
(spec §4.6). -/
def prepare_run_environment (st : RunState) : RunState × Nat :=
  let n := 1 + st.existing_runs.foldl max 0
  ({ existing_runs := st.existing_runs ++ [n] }, n)

/-- Python `RunsHandler.run_flow`: build the graph from the file data, compute the
execution order, raise `NoNodesToRun` when it is empty — before any run
environment is prepared — and otherwise prepare the run environment and
return the running status with the allocated run number.  The asynchronous
execution kick-off touches no further run-allocation state. -/
def run_flow (st : RunState) (data : GraphData) :
    RunState × Except RunFlowError RunFlowResult :=
  let nodes := graphNodeIds data
  let edgePairs := data.edges.map (fun e => (e.source, e.target))
  let nodes_to_run := (print_bfs_nodes nodes edgePairs).1
  if nodes_to_run.isEmpty then
    (st, Except.error RunFlowError.NoNodesToRun)
  else
    let pr := prepare_run_environment st
    (pr.1, Except.ok { flow_status := "running", run_number := pr.2 })

theorem foldl_max_le_init (l : List Nat) (a : Nat) : a ≤ l.foldl max a := by
  induction l generalizing a with
  | nil => exact le_refl a
  | cons x xs ih => exact le_trans (le_max_left a x) (ih (max a x))

theorem mem_le_foldl_max (l : List Nat) (a : Nat) (m : Nat) (hm : m ∈ l) :
    m ≤ l.foldl max a := by
  induction l generalizing a with
  | nil => cases hm
  | cons x xs ih =>
    rcases List.mem_cons.mp hm with h | h
    · subst h
      exact le_trans (le_max_right a m) (foldl_max_le_init xs (max a m))
    · exact ih (max a x) h

/-- C8: when the computed execution order is empty, `run_flow` raises
`NoNodesToRun` with the run state untouched (no run directory created, no
run number allocated); when it is non-empty, `run_flow` returns
`flow_status = "running"` with a freshly allocated run number, strictly
larger than every existing one; and a graph with no nodes and no edges
always yields an empty order. -/
theorem C8_run_flow_empty_order (st : RunState) (data : GraphData) :
    ((print_bfs_nodes (graphNodeIds data)
        (data.edges.map (fun e => (e.source, e.target)))).1 = []
      → run_flow st data = (st, Except.error RunFlowError.NoNodesToRun))
    ∧ ((print_bfs_nodes (graphNodeIds data)
        (data.edges.map (fun e => (e.source, e.target)))).1 ≠ []
      → ∃ n, run_flow st data
            = ({ existing_runs := st.existing_runs ++ [n] },
               Except.ok { flow_status := "running", run_number := n })
          ∧ ∀ m ∈ st.existing_runs, m < n)
    ∧ (data.nodes = [] → data.edges = [] →
        (print_bfs_nodes (graphNodeIds data)
          (data.edges.map (fun e => (e.source, e.target)))).1 = []) := by
  refine ⟨?_, ?_, ?_⟩
  · intro hempty
    unfold run_flow
    rw [if_pos (by simp [hempty])]
  · intro hne
    refine ⟨1 + st.existing_runs.foldl max 0, ?_, ?_⟩
    · unfold run_flow
      rw [if_neg (by simpa using hne)]
      rfl
    · intro m hm
      have := mem_le_foldl_max st.existing_runs 0 m hm
      omega
  · intro hn he
    simp [print_bfs_nodes, graphNodeIds, hn, he, kahnLayers]

/-- An empty graph file content (spec scenario S1). -/
def emptyGraphData : GraphData := { nodes := [], edges := [] }

/-- A graph file content with the single node A. -/
def singleNodeData : GraphData := { nodes := [nodeA], edges := [] }

/-- Witness for C8: the empty graph yields `NoNodesToRun` with the run
state untouched, and a one-node graph yields a running flow with a fresh
run number. -/
theorem C8_run_flow_empty_order_witness :
    run_flow { existing_runs := [] } emptyGraphData
      = ({ existing_runs := [] }, Except.error RunFlowError.NoNodesToRun)
    ∧ (∃ n, run_flow { existing_runs := [] } singleNodeData
          = ({ existing_runs := [] ++ [n] },
             Except.ok { flow_status := "running", run_number := n })
        ∧ ∀ m ∈ ([] : List Nat), m < n) :=
  ⟨(C8_run_flow_empty_order { existing_runs := [] } emptyGraphData).1 (by decide),
   (C8_run_flow_empty_order { existing_runs := [] } singleNodeData).2.1 (by decide)⟩

/-! Atomicity of the data I/O layer's writes (`Graph.save_to_file`). -/

/-- A filesystem operation the write path can perform. -/
inductive FsOp where
  | mkdirParents (dir : String)
  | fileWrite (path : String) (content : GraphData)
  | tempWriteRename (temp_path : String) (path : String) (content : GraphData)

/-- Whether an operation writes directly to its destination path. -/
def isDirectWrite : FsOp → Bool
  | FsOp.fileWrite _ _ => true
  | _ => false

/-- Whether an operation writes file content at all. -/
def isWrite : FsOp → Bool
  | FsOp.fileWrite _ _ => true
  | FsOp.tempWriteRename _ _ _ => true
  | _ => false

/-- Python `path.parent` of a slash-separated path. -/
def parentDir (path : String) : String :=
  String.intercalate "/" ((path.splitOn "/").dropLast)

/-- The filesystem operations `Graph.save_to_file` performs, in order:
`path.parent.mkdir(parents=True, exist_ok=True)`, then a single direct
`open(path, "w")` + `json.dump` of the serialized graph. -/
def Graph.save_to_file_ops (g : Graph) (path : String) : List FsOp :=
  [FsOp.mkdirParents (parentDir path), FsOp.fileWrite path g.to_graph_data]

/-- The spec's atomic-write discipline, stated over a trace of filesystem
operations: no write goes directly to a destination path — every write is a
write-temp-then-rename. -/
def atomicPerFile (ops : List FsOp) : Prop :=
  ∀ op ∈ ops, isDirectWrite op = false

/-- Counterexample to C9: the trace of `Graph.save_to_file` on the empty
graph writes directly to the destination `proj/graph.json`, so it is not
write-temp-then-rename atomic. -/
theorem C9_counterexample :
    ¬ atomicPerFile (Graph.save_to_file_ops (Graph.init [] []) "proj/graph.json") := by
  intro h
  have := h (FsOp.fileWrite "proj/graph.json" (Graph.init [] []).to_graph_data)
    (List.mem_cons_of_mem _ (List.mem_cons_self _ _))
  simp [isDirectWrite] at this

/-- C9 as amended: `Graph.save_to_file` creates the parent directory and
then performs exactly one write — a direct write of the full serialized
graph to the destination path; no temporary file and no rename is used. -/
theorem C9_amended_direct_write (g : Graph) (path : String) :
    (Graph.save_to_file_ops g path).filter isWrite
      = [FsOp.fileWrite path g.to_graph_data]
    ∧ ∀ op ∈ Graph.save_to_file_ops g path,
        ∀ t p c, op ≠ FsOp.tempWriteRename t p c := by
  constructor
  · rfl
  · intro op hop t p c
    rcases List.mem_cons.mp hop with h | h
    · subst h
      intro hcon
      cases hcon
    · rcases List.mem_cons.mp h with h2 | h2
      · subst h2
        intro hcon
        cases hcon
      · cases h2

/-- Witness for C9 as amended at the empty graph and `proj/graph.json`. -/
theorem C9_amended_direct_write_witness :
    (Graph.save_to_file_ops (Graph.init [] []) "proj/graph.json").filter isWrite
      = [FsOp.fileWrite "proj/graph.json" (Graph.init [] []).to_graph_data]
    ∧ ∀ t p c, FsOp.fileWrite "proj/graph.json" (Graph.init [] []).to_graph_data
        ≠ FsOp.tempWriteRename t p c :=
  ⟨(C9_amended_direct_write (Graph.init [] []) "proj/graph.json").1,
   fun t p c => (C9_amended_direct_write (Graph.init [] []) "proj/graph.json").2
     (FsOp.fileWrite "proj/graph.json" (Graph.init [] []).to_graph_data)
     (List.mem_cons_of_mem _ (List.mem_cons_self _ _)) t p c⟩

end Fluidize
